import Mathlib

/-!
Verification development for the ky-lake-backend scraper and cache
(`src/scraper.py`, `src/main.py`).

The Python code is shallowly embedded: page text is `List Char`, numeric
values are `ℚ` (the decimal literals the scraper handles are exact
rationals; non-finite float literals such as "inf"/"nan" are outside the
model), fallible operations return `Option`, and the regular expressions
actually used by the scraper (`Pool\s*Elevation`, `\bInflow\b`, ...,
`-?\d+(?:\.\d+)?`) are embedded by a deterministic matcher for exactly the
constructs they use.  HTML/HTTP plumbing (BeautifulSoup, requests) is an
external collaborator: parsers take the flattened page text and the list
of flattened table-row texts as inputs.
-/

namespace KyLake

/-- ASCII whitespace recognized by Python's `str.strip` / `\s`. -/
def isPyWs (c : Char) : Bool :=
  c = ' ' || c = '\t' || c = '\n' || c = '\r' || c = '\x0b' || c = '\x0c'

/-- Word character for `\b` (ASCII model of Python's `\w`). -/
def isWordChar (c : Char) : Bool :=
  c.isAlphanum || c = '_'

/-- Python `str.strip()`: drop leading and trailing whitespace. -/
def pyStrip (l : List Char) : List Char :=
  ((l.dropWhile isPyWs).reverse.dropWhile isPyWs).reverse

/-- The characters of a string literal, used to write page texts. -/
def chars (s : String) : List Char :=
  s.data

/-- Value of a list of decimal digit characters. -/
def digitsVal (ds : List Char) : Nat :=
  ds.foldl (fun n c => 10 * n + (c.toNat - 48)) 0

/-- Exponent suffix of a Python float literal: `[+-]?digits`, end of input.
`neg` is the mantissa sign, `mn / md` the unsigned mantissa as a fraction. -/
def pyExpPart (neg : Bool) (mn md : Nat) (l : List Char) : Option ℚ :=
  let (epos, l1) :=
    match l with
    | '+' :: r => (true, r)
    | '-' :: r => (false, r)
    | r => (true, r)
  let eds := l1.takeWhile Char.isDigit
  let rest := l1.dropWhile Char.isDigit
  if eds.isEmpty || !rest.isEmpty then none
  else
    let e := digitsVal eds
    let n : Nat := if epos then mn * 10 ^ e else mn
    let d : Nat := if epos then md else md * 10 ^ e
    some (mkRat (if neg then -(n : Int) else (n : Int)) d)

/-- Python `float(s)` on a finite decimal literal:
`[+-]? (digits [. digits?] | . digits) ([eE] [+-]? digits)?`.
Returns `none` where `float` raises `ValueError` (non-finite literals such
as "inf"/"nan" and digit-group underscores are outside the model). -/
def pyFloat (l : List Char) : Option ℚ :=
  let (neg, l1) :=
    match l with
    | '+' :: r => (false, r)
    | '-' :: r => (true, r)
    | r => (false, r)
  let ds1 := l1.takeWhile Char.isDigit
  let r1 := l1.dropWhile Char.isDigit
  let step : Option (Nat × Nat × List Char) :=
    match r1 with
    | '.' :: r2 =>
      let ds2 := r2.takeWhile Char.isDigit
      let r3 := r2.dropWhile Char.isDigit
      if ds1.isEmpty && ds2.isEmpty then none
      else some (digitsVal ds1 * 10 ^ ds2.length + digitsVal ds2, 10 ^ ds2.length, r3)
    | _ =>
      if ds1.isEmpty then none else some (digitsVal ds1, 1, r1)
  match step with
  | none => none
  | some (mn, md, rest) =>
    match rest with
    | [] => some (mkRat (if neg then -(mn : Int) else (mn : Int)) md)
    | 'e' :: r4 => pyExpPart neg mn md r4
    | 'E' :: r4 => pyExpPart neg mn md r4
    | _ => none

/-- Model of `_num` on a character list:
`float(str(x).replace(",", "").replace("%", "").strip())`, `None` on failure. -/
def numL (l : List Char) : Option ℚ :=
  pyFloat (pyStrip ((l.filter (· ≠ ',')).filter (· ≠ '%')))

/-- Model of `_num` on a string cell. -/
def num (s : String) : Option ℚ :=
  numL s.data

/-- Digits-with-optional-fraction part of a number token, anchored at the
head of `l` (the head is already known to be a digit): greedy `\d+`
followed by `(?:\.\d+)?` as in the scraper's number regex. -/
def numToken (l : List Char) : List Char :=
  let ds := l.takeWhile Char.isDigit
  let rest := l.dropWhile Char.isDigit
  match rest with
  | '.' :: r2 =>
    let ds2 := r2.takeWhile Char.isDigit
    if ds2.isEmpty then ds else ds ++ '.' :: ds2
  | _ => ds

/-- Leftmost match of `-?\d+(?:\.\d+)?` (the token of `re.search`):
`none` when the text contains no number token. -/
def scanNumber : List Char → Option (List Char)
  | [] => none
  | c :: rest =>
    if c.isDigit then some (numToken (c :: rest))
    else if c = '-' && (match rest with | d :: _ => d.isDigit | [] => false) then
      some ('-' :: numToken rest)
    else scanNumber rest

/-- Token of the label regexes the scraper uses: a literal character
(matched case-insensitively under `re.IGNORECASE`), `\s*`, or `\b`. -/
inductive PTok where
  | lit (c : Char)
  | ws
  | wb
deriving DecidableEq

/-- A label pattern: a sequence of regex tokens. -/
abbrev Pat := List PTok

/-- Is an optional character a word character (`\b` looks at both sides;
a missing side counts as non-word)? -/
def isWordOpt : Option Char → Bool
  | none => false
  | some c => isWordChar c

/-- Match a pattern at the head of `rest`, given the character just before
`rest` (for `\b`).  Returns the remaining text after the match.  `\s*` is
matched by maximal munch; in every pattern the scraper uses, `\s*` is
followed by a letter literal, so this equals the regex's backtracking
semantics. -/
def patMatch : Pat → Option Char → List Char → Option (List Char)
  | [], _, rest => some rest
  | .lit _ :: _, _, [] => none
  | .lit c :: p, _, d :: rest =>
    if d.toLower = c.toLower then patMatch p (some d) rest else none
  | .ws :: p, prev, rest =>
    let run := rest.takeWhile isPyWs
    patMatch p (match run.getLast? with | some w => some w | none => prev) (rest.dropWhile isPyWs)
  | .wb :: p, prev, rest =>
    if isWordOpt prev ≠ isWordOpt rest.head? then patMatch p prev rest else none

/-- Scan for the leftmost pattern match; returns `m.end()` of the first
match (`re.search` semantics), given the current position `i` and the
character just before the remaining text. -/
def searchGo (p : Pat) (prev : Option Char) (i : Nat) : List Char → Option Nat
  | [] =>
    match patMatch p prev [] with
    | some rem => some (i + (0 - rem.length))
    | none => none
  | c :: rs =>
    match patMatch p prev (c :: rs) with
    | some rem => some (i + ((c :: rs).length - rem.length))
    | none => searchGo p (some c) (i + 1) rs

/-- Model of `re.search(label_regex, full_text, re.IGNORECASE)`: end position of the
leftmost match, or `none`. -/
def searchEnd (p : Pat) (t : List Char) : Option Nat :=
  searchGo p none 0 t

/-- Model of `_first_number_near_label`: slice `window` characters after the first
label match, strip commas, and return the first number token there through
`_num`. -/
def firstNumberNearLabel (t : List Char) (p : Pat) (window : Nat := 140) : Option ℚ :=
  match searchEnd p t with
  | none => none
  | some e =>
    match scanNumber (((t.drop e).take window).filter (· ≠ ',')) with
    | none => none
    | some tok => numL tok

/-- Model of `_maybe_kcfs_to_cfs`: values strictly below 200 are taken to be kcfs
and multiplied by 1000; `None` passes through. -/
def maybeKcfs : Option ℚ → Option ℚ
  | none => none
  | some v => if v < 200 then some (v * 1000) else some v

/-- Literal tokens of a string, for building label patterns. -/
def litStr (s : String) : Pat :=
  s.data.map PTok.lit

/-- Pattern `Pool\s*Elevation`. -/
def patPoolElev : Pat := litStr "Pool" ++ [PTok.ws] ++ litStr "Elevation"

/-- Pattern `Lake\s*Elevation`. -/
def patLakeElev : Pat := litStr "Lake" ++ [PTok.ws] ++ litStr "Elevation"

/-- Pattern `Elevation`. -/
def patElev : Pat := litStr "Elevation"

/-- Pattern `\bInflow\b`. -/
def patInflow : Pat := [PTok.wb] ++ litStr "Inflow" ++ [PTok.wb]

/-- Pattern `\bIn\s*Flow\b`. -/
def patInFlow : Pat := [PTok.wb] ++ litStr "In" ++ [PTok.ws] ++ litStr "Flow" ++ [PTok.wb]

/-- Pattern `\bOutflow\b`. -/
def patOutflow : Pat := [PTok.wb] ++ litStr "Outflow" ++ [PTok.wb]

/-- Pattern `\bOut\s*Flow\b`. -/
def patOutFlow : Pat := [PTok.wb] ++ litStr "Out" ++ [PTok.ws] ++ litStr "Flow" ++ [PTok.wb]

/-- Pattern `\bTotal\s*Flow\b`. -/
def patTotalFlow : Pat := [PTok.wb] ++ litStr "Total" ++ [PTok.ws] ++ litStr "Flow" ++ [PTok.wb]

/-- Pattern `\bRelease\b`. -/
def patRelease : Pat := [PTok.wb] ++ litStr "Release" ++ [PTok.wb]

/-- One row of hydrological data (`ProjectReading`), the dict shape both
scrapers build. -/
structure Reading where
  basin : String
  project : String
  todayPool : Option ℚ
  deviation : Option ℚ
  change24h : Option ℚ
  precip24h : Option ℚ
  inflow : Option ℚ
  outflow : Option ℚ
  percentUtil : Option ℚ
deriving DecidableEq

/-- Python `x or y` on optional floats: `None` and `0.0` are falsy. -/
def pyOr (a b : Option ℚ) : Option ℚ :=
  match a with
  | some v => if v ≠ 0 then some v else b
  | none => b

/-- The `pool` chain of `scrape_wolf_creek_cumberland`:
`_first_number_near_label(.., "Pool\s*Elevation") or .. or ..`. -/
def rawPool (ft : List Char) : Option ℚ :=
  pyOr (pyOr (firstNumberNearLabel ft patPoolElev) (firstNumberNearLabel ft patLakeElev))
    (firstNumberNearLabel ft patElev)

/-- The `inflow` chain: `Inflow` or `In\s*Flow`. -/
def rawInflow (ft : List Char) : Option ℚ :=
  pyOr (firstNumberNearLabel ft patInflow) (firstNumberNearLabel ft patInFlow)

/-- The `outflow` chain: `Outflow` or `Out\s*Flow` or `Total\s*Flow` or `Release`. -/
def rawOutflow (ft : List Char) : Option ℚ :=
  pyOr (pyOr (pyOr (firstNumberNearLabel ft patOutflow) (firstNumberNearLabel ft patOutFlow))
      (firstNumberNearLabel ft patTotalFlow))
    (firstNumberNearLabel ft patRelease)

/-- The table fallback: first table row whose joined cell text matches
`Pool\s*Elevation` (case-insensitive) and contains a number; that row's
first number (commas stripped) through `_num`.  A label row without a
number does not stop the scan (`break` sits under `if n:`). -/
def rowFallbackPool : List (List Char) → Option ℚ
  | [] => none
  | r :: rs =>
    if (searchEnd patPoolElev r).isSome then
      match scanNumber (r.filter (· ≠ ',')) with
      | some tok => numL tok
      | none => rowFallbackPool rs
    else rowFallbackPool rs

/-- The pool value after the fallback: the fallback runs only when the
label chain produced `None` (`if pool is None:`). -/
def poolFinal (ft : List Char) (trs : List (List Char)) : Option ℚ :=
  match rawPool ft with
  | none => rowFallbackPool trs
  | some v => some v

/-- Model of `scrape_wolf_creek_cumberland` given the flattened page text and the
flattened table-row texts (the two views BeautifulSoup provides).  Returns
`None` when pool, inflow and outflow are all `None`. -/
def scrapeWolf (ft : List Char) (trs : List (List Char)) : Option Reading :=
  let pool := poolFinal ft trs
  let inflowCfs := maybeKcfs (rawInflow ft)
  let outflowCfs := maybeKcfs (rawOutflow ft)
  if pool.isNone && inflowCfs.isNone && outflowCfs.isNone then none
  else
    some
      { basin := "Cumberland"
        project := "Lake Cumberland"
        todayPool := pool
        deviation := none
        change24h := none
        precip24h := none
        inflow := inflowCfs
        outflow := outflowCfs
        percentUtil := none }

/-- The record `scrape_lakes` builds from one kept row: fixed positional
column mapping, each numeric field through `_num` independently. -/
def mkReading (basin : String) (cols : List String) : Reading :=
  { basin := basin
    project := cols.getD 1 ""
    todayPool := num (cols.getD 5 "")
    deviation := num (cols.getD 6 "")
    change24h := num (cols.getD 7 "")
    precip24h := num (cols.getD 8 "")
    inflow := num (cols.getD 9 "")
    outflow := num (cols.getD 10 "")
    percentUtil := num (cols.getD 12 "") }

/-- The row loop of `scrape_lakes` over the post-header rows, threading
`last_basin` (initially `""`): rows with fewer than 13 cells are skipped
before any basin bookkeeping; a non-empty first cell becomes the new
current basin. -/
def parseRows (lastBasin : String) : List (List String) → List Reading
  | [] => []
  | cols :: rest =>
    if cols.length < 13 then parseRows lastBasin rest
    else
      let c0 := cols.getD 0 ""
      let basin := if c0 = "" then lastBasin else c0
      mkReading basin cols :: parseRows basin rest

/-- Python `(l.get("project") or "").strip().lower()` as a character list. -/
def stripLower (s : String) : List Char :=
  (pyStrip s.data).map Char.toLower

/-- The merge loop's match test: primary project name, trimmed and
lowercased, equals `"lake cumberland"`. -/
def matchesCumberland (l : Reading) : Bool :=
  decide (stripLower l.project = chars "lake cumberland")

/-- The merge body on a matched record: for `todayPool`, `inflow`,
`outflow`, fill the primary field from the secondary only when the primary
is `None` and the secondary is not. -/
def fillFromWol (l wol : Reading) : Reading :=
  { l with
    todayPool := if l.todayPool.isNone && wol.todayPool.isSome then wol.todayPool else l.todayPool
    inflow := if l.inflow.isNone && wol.inflow.isSome then wol.inflow else l.inflow
    outflow := if l.outflow.isNone && wol.outflow.isSome then wol.outflow else l.outflow }

/-- The merge loop of `scrape_lakes`: fill the first matching record and
stop (`break`); append the secondary record when no record matches. -/
def mergeWol : List Reading → Reading → List Reading
  | [], wol => [wol]
  | l :: rest, wol =>
    if matchesCumberland l then fillFromWol l wol :: rest
    else l :: mergeWol rest wol

/-- The whole merge step: a failed or empty secondary scrape (`None`)
leaves the primary list unchanged. -/
def addWol (lakes : List Reading) : Option Reading → List Reading
  | none => lakes
  | some wol => mergeWol lakes wol

/-- The persisted snapshot (`storage.json`), with time modelled in
seconds: `displayDate` is the date-only stamp, `capturedAt` the parsed
`timestamp_utc` (`none` for a missing or unparseable value, which
`is_cache_fresh` treats as stale). -/
structure StoredSnap where
  lakes : List Reading
  displayDate : Int
  capturedAt : Option Int
deriving DecidableEq

/-- Outcome of `scrape_lakes()` as seen by the route handlers: the
`error` flag with its message, or the lake list. -/
inductive ScrapeRes where
  | fail (message : String)
  | ok (lakes : List Reading)
deriving DecidableEq

/-- A route response: the `source` tag with the returned snapshot and
optional warning. -/
inductive Response where
  | cached (s : StoredSnap) (warning : Option String)
  | fresh (s : StoredSnap)
  | error (message : String)
deriving DecidableEq

/-- The freshness window: `CACHE_HOURS = 2`, in seconds. -/
def cacheWindow : Int := 2 * 3600

/-- Model of `is_cache_fresh`: `(utcnow - timestamp_utc) < timedelta(hours=2)`,
`False` on a missing or unparseable timestamp. -/
def isCacheFresh (s : StoredSnap) (now : Int) : Bool :=
  match s.capturedAt with
  | none => false
  | some ts => decide (now - ts < cacheWindow)

/-- Model of `normalize_scrape_result`: stamp the date-only display timestamp and
the precise `timestamp_utc` at normalization time. -/
def normalizeSnap (lakes : List Reading) (now today : Int) : StoredSnap :=
  { lakes := lakes, displayDate := today, capturedAt := some now }

/-- The scrape-and-fallback tail of `get_lakes`: on scrape failure fall
back to any stored entry (tagged cached, with a warning), else error; on
success persist the normalized snapshot and return it fresh.  The second
component is the storage state after the request. -/
def getLakesScrape (saved : Option StoredSnap) (now today : Int) (scrape : ScrapeRes) :
    Response × Option StoredSnap :=
  match scrape with
  | .fail msg =>
    match saved with
    | some s => (.cached s (some msg), saved)
    | none => (.error msg, none)
  | .ok lakes =>
    let n := normalizeSnap lakes now today
    (.fresh n, some n)

/-- Route `get_lakes` (`/lakes`): serve the stored entry when it is fresh,
otherwise scrape.  `saved = none` models a missing or unreadable
`storage.json` (`load_storage` fails soft). -/
def getLakes (saved : Option StoredSnap) (now today : Int) (scrape : ScrapeRes) :
    Response × Option StoredSnap :=
  match saved with
  | some s =>
    if isCacheFresh s now then (.cached s none, some s)
    else getLakesScrape (some s) now today scrape
  | none => getLakesScrape none now today scrape

/-- Route `refresh` (`/refresh`): always scrape; on failure return the error
envelope and leave storage untouched. -/
def refreshEp (stored : Option StoredSnap) (now today : Int) (scrape : ScrapeRes) :
    Response × Option StoredSnap :=
  match scrape with
  | .fail msg => (.error msg, stored)
  | .ok lakes =>
    let n := normalizeSnap lakes now today
    (.fresh n, some n)

/-- Spec-side reading of an alternative chain, as claim C5 states it:
the first non-absent alternative wins outright. -/
def firstSomeAlt : List (Option ℚ) → Option ℚ
  | [] => none
  | a :: as =>
    match a with
    | some v => some v
    | none => firstSomeAlt as

/-- Spec-side description of Python's `a or b or ...` on optional floats
(the amended claim C5): the first non-absent nonzero alternative wins;
when no alternative is nonzero the chain's value is the last
alternative's value (possibly zero or absent). -/
def chainSpec : List (Option ℚ) → Option ℚ
  | [] => none
  | [a] => a
  | a :: as =>
    match a with
    | some v => if v ≠ 0 then some v else chainSpec as
    | none => chainSpec as

/-- The `last_basin` value after the primary row loop has processed a
list of rows: only kept rows (13 or more cells) with a non-empty first
cell update it. -/
def basinAfter (b : String) : List (List String) → String
  | [] => b
  | r :: rs =>
    if r.length < 13 then basinAfter b rs
    else basinAfter (if r.getD 0 "" = "" then b else r.getD 0 "") rs

/-- The character immediately preceding a suffix of the text, given the
character (if any) preceding the whole text: the last character of the
consumed prefix `a`, falling back to `prev` when `a` is empty. -/
def prevOf (prev : Option Char) (a : List Char) : Option Char :=
  match a.getLast? with
  | some c => some c
  | none => prev

lemma pyStrip_cons_ws (l : List Char) : pyStrip (' ' :: l) = pyStrip l := by
  simp [pyStrip, List.dropWhile_cons, isPyWs]

lemma pyStrip_append_ws (l : List Char) : pyStrip (l ++ [' ']) = pyStrip l := by
  unfold pyStrip
  rw [List.dropWhile_append]
  cases hd : (l.dropWhile isPyWs).isEmpty
  · simp only [Bool.false_eq_true, if_false]
    rw [List.reverse_append]
    simp [List.dropWhile_cons, isPyWs]
  · rw [if_pos rfl, List.isEmpty_iff.mp hd]
    decide

/-- C8: `NumericCoercion` (`_num`) is total and never throws (it is a
Lean function into `Option ℚ`); commas and percent signs are stripped
anywhere in the token, surrounding whitespace is stripped, and the
remainder is parsed as a float; it returns absent for `""`, `"N/A"` and
null (`str(None) = "None"`), `1234.5` for `"1,234.5"` and `12.3` for
`"12.3%"`. -/
theorem c8_numeric_coercion :
    (∀ a b : List Char, numL (a ++ ',' :: b) = numL (a ++ b))
    ∧ (∀ a b : List Char, numL (a ++ '%' :: b) = numL (a ++ b))
    ∧ (∀ l : List Char, numL (' ' :: l) = numL l)
    ∧ (∀ l : List Char, numL (l ++ [' ']) = numL l)
    ∧ num "" = none ∧ num "N/A" = none ∧ num "None" = none
    ∧ num "1,234.5" = some (1234.5 : ℚ)
    ∧ num "12.3%" = some (12.3 : ℚ) := by
  refine ⟨?_, ?_, ?_, ?_, by decide, by decide, by decide, ?_, ?_⟩
  · intro a b
    simp [numL, List.filter_append]
  · intro a b
    simp [numL, List.filter_append]
  · intro l
    simp [numL, pyStrip_cons_ws]
  · intro l
    simp [numL, List.filter_append, pyStrip_append_ws]
  · have h : num "1,234.5" = some (mkRat 12345 10) := by decide
    rw [h, Rat.mkRat_eq_div]
    norm_num
  · have h : num "12.3%" = some (mkRat 123 10) := by decide
    rw [h, Rat.mkRat_eq_div]
    norm_num

/-- C6: the unit heuristic `_maybe_kcfs_to_cfs` multiplies a value
strictly below 200 by 1000, leaves a value of 200 or more unchanged, and
passes absent through; `150 ↦ 150000`, `4500 ↦ 4500`; and the secondary
parser's emitted inflow/outflow are exactly the corrected raw chain
values. -/
theorem c6_unit_heuristic :
    (∀ v : ℚ, v < 200 → maybeKcfs (some v) = some (v * 1000))
    ∧ (∀ v : ℚ, 200 ≤ v → maybeKcfs (some v) = some v)
    ∧ maybeKcfs none = none
    ∧ maybeKcfs (some 150) = some 150000
    ∧ maybeKcfs (some 4500) = some 4500
    ∧ (∀ (ft : List Char) (trs : List (List Char)) (r : Reading),
        scrapeWolf ft trs = some r →
        r.inflow = maybeKcfs (rawInflow ft) ∧ r.outflow = maybeKcfs (rawOutflow ft)) := by
  refine ⟨?_, ?_, rfl, by norm_num [maybeKcfs], by norm_num [maybeKcfs], ?_⟩
  · intro v hv
    simp [maybeKcfs, hv]
  · intro v hv
    simp [maybeKcfs, not_lt.mpr hv]
  · intro ft trs r h
    simp only [scrapeWolf] at h
    split at h
    · exact absurd h (by simp)
    · cases h
      exact ⟨rfl, rfl⟩

/-- Witness for C6 at concrete inputs 100 and 4500. -/
theorem c6_unit_heuristic_witness :
    maybeKcfs (some 100) = some (100 * 1000) ∧ maybeKcfs (some 4500) = some 4500 :=
  ⟨c6_unit_heuristic.1 100 (by norm_num), c6_unit_heuristic.2.1 4500 (by norm_num)⟩

/-- C4: `/refresh` always scrapes (its response is independent of the
stored cache), returns the error envelope on scrape failure leaving the
stored snapshot untouched, and overwrites the store only on success. -/
theorem c4_force_refresh :
    (∀ (st : Option StoredSnap) (now today : Int) (msg : String),
        refreshEp st now today (.fail msg) = (.error msg, st))
    ∧ (∀ (st : Option StoredSnap) (now today : Int) (lakes : List Reading),
        refreshEp st now today (.ok lakes) =
          (.fresh (normalizeSnap lakes now today), some (normalizeSnap lakes now today)))
    ∧ (∀ (s1 s2 : Option StoredSnap) (now today : Int) (sc : ScrapeRes),
        (refreshEp s1 now today sc).1 = (refreshEp s2 now today sc).1) := by
  refine ⟨fun _ _ _ _ => rfl, fun _ _ _ _ => rfl, fun s1 s2 now today sc => ?_⟩
  cases sc <;> rfl

/-- C3: `/lakes` serves a stored snapshot younger than the 2-hour window
as "cached" without consulting the scrape; a stale or absent entry
triggers the scrape, whose success is persisted and returned "fresh";
scrape failure returns the stale entry "cached" with a warning, or
"error" when nothing is stored. -/
theorem c3_freshness_cache :
    (∀ (s : StoredSnap) (now today : Int) (sc : ScrapeRes) (ts : Int),
        s.capturedAt = some ts → now - ts < cacheWindow →
        getLakes (some s) now today sc = (.cached s none, some s))
    ∧ (∀ (s : StoredSnap) (now today : Int) (lakes : List Reading),
        isCacheFresh s now = false →
        getLakes (some s) now today (.ok lakes) =
          (.fresh (normalizeSnap lakes now today), some (normalizeSnap lakes now today)))
    ∧ (∀ (now today : Int) (lakes : List Reading),
        getLakes none now today (.ok lakes) =
          (.fresh (normalizeSnap lakes now today), some (normalizeSnap lakes now today)))
    ∧ (∀ (s : StoredSnap) (now today : Int) (msg : String),
        isCacheFresh s now = false →
        getLakes (some s) now today (.fail msg) = (.cached s (some msg), some s))
    ∧ (∀ (now today : Int) (msg : String),
        getLakes none now today (.fail msg) = (.error msg, none)) := by
  refine ⟨?_, ?_, fun _ _ _ => rfl, ?_, fun _ _ _ => rfl⟩
  · intro s now today sc ts hts hlt
    have hf : isCacheFresh s now = true := by simp [isCacheFresh, hts, hlt]
    simp [getLakes, hf]
  · intro s now today lakes hf
    simp [getLakes, hf, getLakesScrape]
  · intro s now today msg hf
    simp [getLakes, hf, getLakesScrape]

/-- Witness for C3: a snapshot captured at 0 is cached at 3600 s, falls
back to cached-with-warning at 7200 s when the scrape fails, and an empty
store with a failing scrape yields an error. -/
theorem c3_freshness_cache_witness :
    getLakes (some ⟨[], 5, some 0⟩) 3600 5 (.fail "boom") =
      (.cached ⟨[], 5, some 0⟩ none, some ⟨[], 5, some 0⟩)
    ∧ getLakes (some ⟨[], 5, some 0⟩) 7200 5 (.fail "boom") =
      (.cached ⟨[], 5, some 0⟩ (some "boom"), some ⟨[], 5, some 0⟩)
    ∧ getLakes none 0 5 (.fail "boom") = (.error "boom", none) :=
  ⟨c3_freshness_cache.1 _ _ _ _ 0 rfl (by norm_num [cacheWindow]),
   c3_freshness_cache.2.2.2.1 _ _ _ _ (by decide),
   c3_freshness_cache.2.2.2.2 _ _ _⟩

lemma addWol_some (lakes : List Reading) (w : Reading) :
    addWol lakes (some w) = mergeWol lakes w := rfl

lemma mergeWol_no_match (lakes : List Reading) (wol : Reading)
    (h : ∀ l ∈ lakes, matchesCumberland l = false) :
    mergeWol lakes wol = lakes ++ [wol] := by
  induction lakes with
  | nil => rfl
  | cons l rest ih =>
    have hl := h l (List.mem_cons_self l rest)
    simp [mergeWol, hl, ih fun x hx => h x (List.mem_cons_of_mem l hx)]

lemma mergeWol_first_match (xs : List Reading) (l : Reading) (ys : List Reading) (wol : Reading)
    (hxs : ∀ x ∈ xs, matchesCumberland x = false) (hl : matchesCumberland l = true) :
    mergeWol (xs ++ l :: ys) wol = xs ++ fillFromWol l wol :: ys := by
  induction xs with
  | nil => simp [mergeWol, hl]
  | cons x rest ih =>
    have hx := hxs x (List.mem_cons_self x rest)
    simp only [List.cons_append, mergeWol, hx, if_false, Bool.false_eq_true]
    exact congrArg (List.cons x) (ih fun y hy => hxs y (List.mem_cons_of_mem x hy))

/-- C2: the merge step fills only absent `todayPool`/`inflow`/`outflow`
fields of the (first) primary record whose trimmed project name
case-insensitively equals the secondary's name, never overwrites present
values, changes no other field, preserves length and order, appends the
secondary record when nothing matches, and returns the primary list
unchanged when the secondary record is absent.  The hypothesis
`wol.project = "Lake Cumberland"` holds for every record the secondary
parser can emit (`scrapeWolf` hard-codes the project name, which is what
the merge loop's literal `"lake cumberland"` compares against). -/
theorem c2_reconciliation_merger :
    ∀ (lakes : List Reading) (wol : Reading), wol.project = "Lake Cumberland" →
      addWol lakes none = lakes
      ∧ (∀ l : Reading, matchesCumberland l = true ↔ stripLower l.project = stripLower wol.project)
      ∧ ((∀ l ∈ lakes, matchesCumberland l = false) → addWol lakes (some wol) = lakes ++ [wol])
      ∧ (∀ (xs : List Reading) (l : Reading) (ys : List Reading),
          lakes = xs ++ l :: ys → (∀ x ∈ xs, matchesCumberland x = false) →
          matchesCumberland l = true →
          addWol lakes (some wol) = xs ++ fillFromWol l wol :: ys
          ∧ (xs ++ fillFromWol l wol :: ys).length = lakes.length
          ∧ (fillFromWol l wol).basin = l.basin
          ∧ (fillFromWol l wol).project = l.project
          ∧ (fillFromWol l wol).deviation = l.deviation
          ∧ (fillFromWol l wol).change24h = l.change24h
          ∧ (fillFromWol l wol).precip24h = l.precip24h
          ∧ (fillFromWol l wol).percentUtil = l.percentUtil
          ∧ (l.todayPool = none → (fillFromWol l wol).todayPool = wol.todayPool)
          ∧ (∀ u, l.todayPool = some u → (fillFromWol l wol).todayPool = some u)
          ∧ (l.inflow = none → (fillFromWol l wol).inflow = wol.inflow)
          ∧ (∀ u, l.inflow = some u → (fillFromWol l wol).inflow = some u)
          ∧ (l.outflow = none → (fillFromWol l wol).outflow = wol.outflow)
          ∧ (∀ u, l.outflow = some u → (fillFromWol l wol).outflow = some u)) := by
  intro lakes wol hw
  refine ⟨rfl, ?_, ?_, ?_⟩
  · intro l
    have hs : stripLower wol.project = chars "lake cumberland" := by rw [hw]; decide
    rw [hs, matchesCumberland, decide_eq_true_iff]
  · intro h
    rw [addWol_some]
    exact mergeWol_no_match lakes wol h
  · intro xs l ys hsplit hxs hl
    subst hsplit
    refine ⟨by rw [addWol_some]; exact mergeWol_first_match xs l ys wol hxs hl,
      by simp, rfl, rfl, rfl, rfl, rfl, rfl, ?_, ?_, ?_, ?_, ?_, ?_⟩
    · intro h
      cases hwp : wol.todayPool <;> simp [fillFromWol, h, hwp]
    · intro u h
      simp [fillFromWol, h]
    · intro h
      cases hwp : wol.inflow <;> simp [fillFromWol, h, hwp]
    · intro u h
      simp [fillFromWol, h]
    · intro h
      cases hwp : wol.outflow <;> simp [fillFromWol, h, hwp]
    · intro u h
      simp [fillFromWol, h]

/-- Witness for C2: the specification's own example — pool is filled from
the secondary record, the present inflow is untouched. -/
theorem c2_reconciliation_merger_witness :
    addWol [⟨"C", "Lake Cumberland", none, none, none, none, some 5000, none, none⟩]
      (some ⟨"Cumberland", "Lake Cumberland", some (mkRat 7231 10), none, none, none,
        some 4800, none, none⟩)
    = [⟨"C", "Lake Cumberland", some (mkRat 7231 10), none, none, none, some 5000, none, none⟩] := by
  have h := (c2_reconciliation_merger
    [⟨"C", "Lake Cumberland", none, none, none, none, some 5000, none, none⟩]
    ⟨"Cumberland", "Lake Cumberland", some (mkRat 7231 10), none, none, none,
      some 4800, none, none⟩ rfl).2.2.2
    [] ⟨"C", "Lake Cumberland", none, none, none, none, some 5000, none, none⟩ []
    rfl (by simp) (by decide)
  have h2 := h.1
  simp only [List.nil_append] at h2
  rw [h2]
  decide

/-- C10: when several primary records match the secondary's project name,
only the first one in sequence order is filled; every later record —
matching or not — is returned unchanged and the secondary record is not
appended. -/
theorem c10_first_match_only :
    ∀ (wol l l2 : Reading) (xs ys zs : List Reading),
      (∀ x ∈ xs, matchesCumberland x = false) →
      matchesCumberland l = true → matchesCumberland l2 = true →
      addWol (xs ++ l :: (ys ++ l2 :: zs)) (some wol)
        = xs ++ fillFromWol l wol :: (ys ++ l2 :: zs)
      ∧ (xs ++ fillFromWol l wol :: (ys ++ l2 :: zs)).length
        = (xs ++ l :: (ys ++ l2 :: zs)).length := by
  intro wol l l2 xs ys zs hxs hl _hl2
  refine ⟨?_, by simp⟩
  rw [addWol_some]
  exact mergeWol_first_match xs l (ys ++ l2 :: zs) wol hxs hl

/-- Witness for C10: two matching records; only the first is filled, the
second stays as the primary parser produced it. -/
theorem c10_first_match_only_witness :
    addWol [⟨"C", "Lake Cumberland", none, none, none, none, none, none, none⟩,
            ⟨"C", "lake cumberland", none, none, none, none, none, none, none⟩]
      (some ⟨"Cumberland", "Lake Cumberland", some 720, none, none, none, none, none, none⟩)
    = [⟨"C", "Lake Cumberland", some 720, none, none, none, none, none, none⟩,
       ⟨"C", "lake cumberland", none, none, none, none, none, none, none⟩] := by
  have h := c10_first_match_only
    ⟨"Cumberland", "Lake Cumberland", some 720, none, none, none, none, none, none⟩
    ⟨"C", "Lake Cumberland", none, none, none, none, none, none, none⟩
    ⟨"C", "lake cumberland", none, none, none, none, none, none, none⟩
    [] [] [] (by simp) (by decide) (by decide)
  have h2 := h.1
  simp only [List.nil_append] at h2
  rw [h2]
  decide

lemma parseRows_append (xs ys : List (List String)) :
    ∀ b, parseRows b (xs ++ ys) = parseRows b xs ++ parseRows (basinAfter b xs) ys := by
  induction xs with
  | nil => intro b; rfl
  | cons r rs ih =>
    intro b
    by_cases h : r.length < 13
    · simp [parseRows, basinAfter, h, ih]
    · simp [parseRows, basinAfter, h, ih]

lemma parseRows_filter (rows : List (List String)) :
    ∀ b, parseRows b rows = parseRows b (rows.filter fun r => 13 ≤ r.length) := by
  induction rows with
  | nil => intro b; rfl
  | cons r rs ih =>
    intro b
    by_cases h : r.length < 13
    · have h2 : ¬ 13 ≤ r.length := by omega
      simp [parseRows, h, List.filter_cons, h2, ih]
    · have h13 : 13 ≤ r.length := by omega
      simp [parseRows, h, List.filter_cons, h13, ih]

lemma parseRows_length (rows : List (List String)) :
    ∀ b, (parseRows b rows).length = (rows.filter fun r => 13 ≤ r.length).length := by
  induction rows with
  | nil => intro b; rfl
  | cons r rs ih =>
    intro b
    by_cases h : r.length < 13
    · have h2 : ¬ 13 ≤ r.length := by omega
      simp [parseRows, h, List.filter_cons, h2, ih]
    · have h13 : 13 ≤ r.length := by omega
      simp [parseRows, h, List.filter_cons, h13, ih]

lemma parseRows_map_project (rows : List (List String)) :
    ∀ b, (parseRows b rows).map Reading.project
      = (rows.filter fun r => 13 ≤ r.length).map (fun r => r.getD 1 "") := by
  induction rows with
  | nil => intro b; rfl
  | cons r rs ih =>
    intro b
    by_cases h : r.length < 13
    · have h2 : ¬ 13 ≤ r.length := by omega
      simp [parseRows, h, List.filter_cons, h2, ih]
    · have h13 : 13 ≤ r.length := by omega
      simp [parseRows, h, List.filter_cons, h13, ih, mkReading]

lemma basinAfter_eq (xs : List (List String)) :
    ∀ b, basinAfter b xs
      = (((xs.filter fun x => 13 ≤ x.length).map fun x => x.getD 0 "").filter
          fun c => c ≠ "").getLastD b := by
  induction xs with
  | nil => intro b; rfl
  | cons r rs ih =>
    intro b
    by_cases h : r.length < 13
    · have h2 : ¬ 13 ≤ r.length := by omega
      simp [basinAfter, h, List.filter_cons, h2, ih]
    · have h13 : 13 ≤ r.length := by omega
      rw [show basinAfter b (r :: rs)
          = basinAfter (if r.getD 0 "" = "" then b else r.getD 0 "") rs from by
        simp [basinAfter, h]]
      rw [List.filter_cons_of_pos (by simpa using h13), List.map_cons]
      by_cases hc : r.getD 0 "" = ""
      · rw [List.filter_cons_of_neg (by simpa using hc), if_pos hc]
        exact ih b
      · rw [List.filter_cons_of_pos (by simpa using hc), if_neg hc, List.getLastD_cons]
        exact ih (r.getD 0 "")

/-- C7: the primary parser drops every post-header row with fewer than 13
cells (such a row contributes nothing, not even to basin fill-down);
output order is input order restricted to kept rows; a kept row with a
non-empty first cell is labelled with that cell, and a kept row with an
empty first cell inherits the nearest preceding kept row's non-empty
first cell (the current basin, initially the empty string). -/
theorem c7_primary_row_policy :
    ∀ (b : String) (rows : List (List String)),
      parseRows b rows = parseRows b (rows.filter fun r => 13 ≤ r.length)
      ∧ (parseRows b rows).map Reading.project
          = (rows.filter fun r => 13 ≤ r.length).map (fun r => r.getD 1 "")
      ∧ (∀ (xs : List (List String)) (r : List String) (ys : List (List String)),
          rows = xs ++ r :: ys → 13 ≤ r.length →
          (parseRows b rows)[(xs.filter fun x => 13 ≤ x.length).length]?
            = some (mkReading
                (if r.getD 0 "" = "" then
                  (((xs.filter fun x => 13 ≤ x.length).map fun x => x.getD 0 "").filter
                      fun c => c ≠ "").getLastD b
                 else r.getD 0 "") r)) := by
  intro b rows
  refine ⟨parseRows_filter rows b, parseRows_map_project rows b, ?_⟩
  intro xs r ys hsplit h13
  subst hsplit
  rw [parseRows_append xs (r :: ys) b]
  have hlen : (parseRows b xs).length = (xs.filter fun x => 13 ≤ x.length).length :=
    parseRows_length xs b
  rw [List.getElem?_append_right (by omega)]
  have hnot : ¬ r.length < 13 := by omega
  have hz : (xs.filter fun x => 13 ≤ x.length).length - (parseRows b xs).length = 0 := by
    omega
  rw [hz]
  simp only [parseRows, hnot, if_false]
  rw [basinAfter_eq xs b]
  by_cases hc : r.getD 0 "" = "" <;> simp [hc]

/-- Witness for C7: the 2-cell row is dropped and its non-empty first
cell ("Wabash") does not become the current basin — the following kept
row with an empty first cell inherits "Ohio" from the first kept row. -/
theorem c7_primary_row_policy_witness :
    (parseRows "" [["Ohio", "ProjA", "1", "2", "3", "4", "5", "6", "7", "8", "9", "10", "11"],
        ["Wabash", "short"],
        ["", "ProjC", "x", "x", "x", "x", "x", "x", "x", "x", "x", "x", "x"]])[1]?
      = some ⟨"Ohio", "ProjC", none, none, none, none, none, none, none⟩ := by
  have h := (c7_primary_row_policy ""
    [["Ohio", "ProjA", "1", "2", "3", "4", "5", "6", "7", "8", "9", "10", "11"],
     ["Wabash", "short"],
     ["", "ProjC", "x", "x", "x", "x", "x", "x", "x", "x", "x", "x", "x"]]).2.2
    [["Ohio", "ProjA", "1", "2", "3", "4", "5", "6", "7", "8", "9", "10", "11"],
     ["Wabash", "short"]]
    ["", "ProjC", "x", "x", "x", "x", "x", "x", "x", "x", "x", "x", "x"] [] rfl (by decide)
  exact h.trans (by decide)

/-- Counterexample to C1: a 13-cell row whose every mapped cell fails
numeric coercion ("x" in all numeric columns) is nevertheless emitted by
the primary parser, as a record with every optional field absent — the
claimed drop does not happen. -/
theorem c1_counterexample :
    parseRows "" [["B", "P", "x", "x", "x", "x", "x", "x", "x", "x", "x", "x", "x"]]
      = [⟨"B", "P", none, none, none, none, none, none, none⟩]
    ∧ (parseRows "" [["B", "P", "x", "x", "x", "x", "x", "x", "x", "x", "x", "x", "x"]]).length
      = 1 :=
  ⟨by decide, by decide⟩

/-- C1 (amended): the primary parser emits one record per kept row even
when every numeric coercion fails; only the secondary parser refuses to
emit: it returns no record exactly when pool, inflow and outflow are all
absent, so an emitted secondary record has at least one of the three
present — possibly only `todayPool`. -/
theorem c1_amended_no_empty_records :
    (∀ (b : String) (rows : List (List String)),
        (parseRows b rows).length = (rows.filter fun r => 13 ≤ r.length).length)
    ∧ (∀ (ft : List Char) (trs : List (List Char)) (r : Reading),
        scrapeWolf ft trs = some r →
        ¬ (r.todayPool = none ∧ r.inflow = none ∧ r.outflow = none))
    ∧ (∀ (ft : List Char) (trs : List (List Char)),
        poolFinal ft trs = none → maybeKcfs (rawInflow ft) = none →
        maybeKcfs (rawOutflow ft) = none → scrapeWolf ft trs = none)
    ∧ scrapeWolf (chars "Pool Elevation 720.5") []
        = some ⟨"Cumberland", "Lake Cumberland", some (mkRat 7205 10),
            none, none, none, none, none, none⟩ := by
  refine ⟨fun b rows => parseRows_length rows b, ?_, ?_, by decide⟩
  · intro ft trs r h
    simp only [scrapeWolf] at h
    split at h
    · exact absurd h (by simp)
    · next hcond =>
      cases h
      rintro ⟨h1, h2, h3⟩
      simp at h1 h2 h3
      exact hcond (by simp [h1, h2, h3])
  · intro ft trs h1 h2 h3
    simp [scrapeWolf, h1, h2, h3]

/-- Witness for the amended C1: a page with no usable label yields no
record at all. -/
theorem c1_amended_witness :
    scrapeWolf (chars "no data here") [] = none :=
  c1_amended_no_empty_records.2.2.1 (chars "no data here") [] (by decide) (by decide) (by decide)

lemma pyOr_eq_chain2 (a b : Option ℚ) : pyOr a b = chainSpec [a, b] := by
  cases a with
  | none => simp [pyOr, chainSpec]
  | some v =>
    by_cases hv : v = 0
    · simp [pyOr, chainSpec, hv]
    · simp [pyOr, chainSpec, hv]

lemma pyOr_eq_chain3 (a b c : Option ℚ) : pyOr (pyOr a b) c = chainSpec [a, b, c] := by
  cases a with
  | none => simp [pyOr, chainSpec, pyOr_eq_chain2]
  | some v =>
    by_cases hv : v = 0
    · simp [pyOr, chainSpec, hv, pyOr_eq_chain2]
    · simp [pyOr, chainSpec, hv]

lemma pyOr_eq_chain4 (a b c d : Option ℚ) :
    pyOr (pyOr (pyOr a b) c) d = chainSpec [a, b, c, d] := by
  cases a with
  | none =>
    rw [show pyOr none b = b from rfl]
    rw [pyOr_eq_chain3]
    rfl
  | some v =>
    by_cases hv : v = 0
    · rw [show pyOr (some v) b = b from by simp [pyOr, hv]]
      rw [pyOr_eq_chain3]
      simp [chainSpec, hv]
    · rw [show pyOr (some v) b = some v from by simp [pyOr, hv]]
      rw [show pyOr (some v) c = some v from by simp [pyOr, hv]]
      rw [show pyOr (some v) d = some v from by simp [pyOr, hv]]
      simp [chainSpec, hv]

set_option maxRecDepth 200000 in
/-- Counterexample to C5: with page text
`"Pool Elevation 0 Lake Elevation 723.1"`, the first pool alternative
succeeds with value 0, so under the claim the chain stops there; the code
(Python `or`, which treats `0.0` as falsy) consults the next alternative
and returns 723.1.  And with an `"Elevation"` occurrence whose window has
no number placed before `"Pool Elevation 0"`, every later alternative
returns absent, so the chain is absent and the table fallback runs even
though the first pool alternative had extracted a value. -/
theorem c5_counterexample :
    firstNumberNearLabel (chars "Pool Elevation 0 Lake Elevation 723.1") patPoolElev = some 0
    ∧ firstSomeAlt
        [firstNumberNearLabel (chars "Pool Elevation 0 Lake Elevation 723.1") patPoolElev,
         firstNumberNearLabel (chars "Pool Elevation 0 Lake Elevation 723.1") patLakeElev,
         firstNumberNearLabel (chars "Pool Elevation 0 Lake Elevation 723.1") patElev] = some 0
    ∧ rawPool (chars "Pool Elevation 0 Lake Elevation 723.1") = some (mkRat 7231 10)
    ∧ decide (rawPool (chars "Pool Elevation 0 Lake Elevation 723.1")
        = firstSomeAlt
            [firstNumberNearLabel (chars "Pool Elevation 0 Lake Elevation 723.1") patPoolElev,
             firstNumberNearLabel (chars "Pool Elevation 0 Lake Elevation 723.1") patLakeElev,
             firstNumberNearLabel (chars "Pool Elevation 0 Lake Elevation 723.1") patElev])
        = false
    ∧ firstNumberNearLabel
        (chars "Elevation" ++ List.replicate 140 'x' ++ chars " Pool Elevation 0")
        patPoolElev = some 0
    ∧ rawPool (chars "Elevation" ++ List.replicate 140 'x' ++ chars " Pool Elevation 0") = none
    ∧ poolFinal (chars "Elevation" ++ List.replicate 140 'x' ++ chars " Pool Elevation 0")
        [chars "Pool Elevation 555"] = some 555 := by
  refine ⟨by decide, by decide, by decide, by decide, ?_, ?_, ?_⟩
  · decide
  · decide
  · decide

/-- C5 (amended): each of pool, inflow and outflow tries its label
alternatives in the stated order, but an alternative wins — cutting off
the rest — only when it yields a nonzero value; a zero or absent result
falls through to the next alternative, and when no alternative is
nonzero the chain's value is the last alternative's value.  The
table-row fallback for pool runs exactly when the chained pool value is
absent, which can happen even though an earlier alternative extracted 0. -/
theorem c5_amended_alternative_order :
    ∀ (ft : List Char) (trs : List (List Char)),
      rawPool ft = chainSpec [firstNumberNearLabel ft patPoolElev,
        firstNumberNearLabel ft patLakeElev, firstNumberNearLabel ft patElev]
      ∧ rawInflow ft = chainSpec [firstNumberNearLabel ft patInflow,
          firstNumberNearLabel ft patInFlow]
      ∧ rawOutflow ft = chainSpec [firstNumberNearLabel ft patOutflow,
          firstNumberNearLabel ft patOutFlow, firstNumberNearLabel ft patTotalFlow,
          firstNumberNearLabel ft patRelease]
      ∧ (∀ v : ℚ, v ≠ 0 → firstNumberNearLabel ft patPoolElev = some v → rawPool ft = some v)
      ∧ (∀ v : ℚ, v ≠ 0 → firstNumberNearLabel ft patInflow = some v → rawInflow ft = some v)
      ∧ (∀ v : ℚ, v ≠ 0 → firstNumberNearLabel ft patOutflow = some v → rawOutflow ft = some v)
      ∧ (rawPool ft = none → poolFinal ft trs = rowFallbackPool trs)
      ∧ (∀ v, rawPool ft = some v → poolFinal ft trs = some v) := by
  intro ft trs
  refine ⟨pyOr_eq_chain3 _ _ _, pyOr_eq_chain2 _ _, pyOr_eq_chain4 _ _ _ _, ?_, ?_, ?_, ?_, ?_⟩
  · intro v hv h
    simp [rawPool, pyOr, h, hv]
  · intro v hv h
    simp [rawInflow, pyOr, h, hv]
  · intro v hv h
    simp [rawOutflow, pyOr, h, hv]
  · intro h
    simp [poolFinal, h]
  · intro v h
    simp [poolFinal, h]

/-- Witness for the amended C5: a nonzero first alternative short-circuits
the pool chain, and a present chained pool value suppresses the fallback. -/
theorem c5_amended_witness :
    rawPool (chars "Pool Elevation 721 Lake Elevation 9") = some 721
    ∧ poolFinal (chars "Pool Elevation 721 Lake Elevation 9") [chars "Pool Elevation 555"]
        = some 721 := by
  refine ⟨(c5_amended_alternative_order (chars "Pool Elevation 721 Lake Elevation 9")
      []).2.2.2.1 721 (by norm_num) (by decide), ?_⟩
  exact (c5_amended_alternative_order (chars "Pool Elevation 721 Lake Elevation 9")
    [chars "Pool Elevation 555"]).2.2.2.2.2.2.2 721
    ((c5_amended_alternative_order (chars "Pool Elevation 721 Lake Elevation 9")
      []).2.2.2.1 721 (by norm_num) (by decide))

lemma prevOf_cons (prev : Option Char) (c : Char) (a : List Char) :
    prevOf prev (c :: a) = prevOf (some c) a := by
  cases a with
  | nil => rfl
  | cons d M =>
    cases hM : (d :: M).getLast? with
    | none => simp at hM
    | some x => simp [prevOf, List.getLast?_cons_cons, hM]

lemma prevOf_none (a : List Char) : prevOf none a = a.getLast? := by
  cases h : a.getLast? <;> simp [prevOf, h]

lemma searchGo_eq_none (p : Pat) :
    ∀ (t : List Char) (prev : Option Char) (i : Nat),
      (∀ a b : List Char, t = a ++ b → patMatch p (prevOf prev a) b = none) →
      searchGo p prev i t = none := by
  intro t
  induction t with
  | nil =>
    intro prev i h
    have h0 : patMatch p prev [] = none := h [] [] rfl
    simp [searchGo, h0]
  | cons c rs ih =>
    intro prev i h
    have h0 : patMatch p prev (c :: rs) = none := h [] (c :: rs) rfl
    simp only [searchGo, h0]
    exact ih (some c) (i + 1) fun a b hab => by
      have hh := h (c :: a) b (by rw [hab]; rfl)
      rwa [prevOf_cons] at hh

lemma searchGo_eq_some (p : Pat) :
    ∀ (t : List Char) (prev : Option Char) (i e : Nat),
      searchGo p prev i t = some e →
      ∃ a b rem, t = a ++ b ∧ patMatch p (prevOf prev a) b = some rem
        ∧ e = i + a.length + (b.length - rem.length)
        ∧ ∀ a' b', t = a' ++ b' → a'.length < a.length →
            patMatch p (prevOf prev a') b' = none := by
  intro t
  induction t with
  | nil =>
    intro prev i e h
    cases hm : patMatch p prev [] with
    | none => simp [searchGo, hm] at h
    | some rem =>
      refine ⟨[], [], rem, rfl, hm, ?_, ?_⟩
      · simp [searchGo, hm] at h
        simp
        omega
      · intro a' b' _ hlt
        simp at hlt
  | cons c rs ih =>
    intro prev i e h
    cases hm : patMatch p prev (c :: rs) with
    | some rem =>
      refine ⟨[], c :: rs, rem, rfl, hm, ?_, ?_⟩
      · simp [searchGo, hm] at h
        simp
        omega
      · intro a' b' _ hlt
        simp at hlt
    | none =>
      simp only [searchGo, hm] at h
      obtain ⟨a', b', rem, hsplit, hmatch, he, hmin⟩ := ih (some c) (i + 1) e h
      refine ⟨c :: a', b', rem, by rw [hsplit, List.cons_append], ?_, ?_, ?_⟩
      · rwa [prevOf_cons]
      · simp only [List.length_cons]
        omega
      · intro a'' b'' hab hlt
        cases a'' with
        | nil =>
          simp only [List.nil_append] at hab
          rw [← hab]
          exact hm
        | cons c2 a3 =>
          simp only [List.cons_append, List.cons.injEq] at hab
          rw [prevOf_cons, ← hab.1]
          exact hmin a3 b'' hab.2 (by simpa using hlt)

set_option maxRecDepth 200000 in
/-- C9: the label proximity extractor returns absent when the text has no
case-insensitive match of the label; otherwise its result is computed
from exactly the 140-character window after the end of the leftmost label
match (the match found is the leftmost one), absent when that window has
no number; the spec's example text yields 12.4, a label-free text yields
absent, and a number beyond the window is not found. -/
theorem c9_label_proximity :
    ∀ (t : List Char) (p : Pat),
      ((∀ a b : List Char, t = a ++ b → patMatch p a.getLast? b = none) →
        firstNumberNearLabel t p = none)
      ∧ (∀ e, searchEnd p t = some e →
          ∃ a b rem, t = a ++ b ∧ patMatch p a.getLast? b = some rem
            ∧ e = a.length + (b.length - rem.length)
            ∧ ∀ a' b', t = a' ++ b' → a'.length < a.length →
                patMatch p a'.getLast? b' = none)
      ∧ (∀ e, searchEnd p t = some e →
          firstNumberNearLabel t p =
            match scanNumber (((t.drop e).take 140).filter (· ≠ ',')) with
            | none => none
            | some tok => numL tok)
      ∧ firstNumberNearLabel (chars "Gauge Inflow: 12.4 kcfs") patInflow = some (12.4 : ℚ)
      ∧ firstNumberNearLabel (chars "text without that label 7") patInflow = none
      ∧ firstNumberNearLabel (chars "Inflow" ++ List.replicate 150 ' ' ++ chars "77") patInflow
          = none := by
  intro t p
  refine ⟨?_, ?_, ?_, ?_, by decide, by decide⟩
  · intro h
    have hn : searchEnd p t = none :=
      searchGo_eq_none p t none 0 fun a b hab => by
        rw [prevOf_none]
        exact h a b hab
    simp [firstNumberNearLabel, hn]
  · intro e he
    obtain ⟨a, b, rem, hsplit, hmatch, hee, hmin⟩ := searchGo_eq_some p t none 0 e he
    rw [prevOf_none] at hmatch
    refine ⟨a, b, rem, hsplit, hmatch, by omega, ?_⟩
    intro a' b' hab hlt
    have hh := hmin a' b' hab hlt
    rwa [prevOf_none] at hh
  · intro e he
    simp [firstNumberNearLabel, he]
  · have h : firstNumberNearLabel (chars "Gauge Inflow: 12.4 kcfs") patInflow
        = some (mkRat 124 10) := by decide
    rw [h]
    congr 1
    rw [Rat.mkRat_eq_div]
    norm_num

/-- Witness for C9: the no-match case at a concrete three-character text,
and the window computation at a concrete matching text. -/
theorem c9_label_proximity_witness :
    firstNumberNearLabel ['x', 'y', 'z'] patInflow = none
    ∧ firstNumberNearLabel (chars "Inflow 5") patInflow = some 5 := by
  constructor
  · apply (c9_label_proximity ['x', 'y', 'z'] patInflow).1
    intro a b hab
    cases a with
    | nil =>
      simp only [List.nil_append] at hab
      rw [← hab]
      decide
    | cons c1 a1 =>
      simp only [List.cons_append, List.cons.injEq] at hab
      cases a1 with
      | nil =>
        simp only [List.nil_append] at hab
        rw [← hab.1, ← hab.2]
        decide
      | cons c2 a2 =>
        simp only [List.cons_append, List.cons.injEq] at hab
        cases a2 with
        | nil =>
          simp only [List.nil_append] at hab
          rw [← hab.1, ← hab.2.1, ← hab.2.2]
          decide
        | cons c3 a3 =>
          simp only [List.cons_append, List.cons.injEq] at hab
          have h3 : a3 = [] ∧ b = [] := by
            have := hab.2.2.2
            exact List.append_eq_nil.mp this.symm
          rw [← hab.1, ← hab.2.1, ← hab.2.2.1, h3.1, h3.2]
          decide
  · have h := (c9_label_proximity (chars "Inflow 5") patInflow).2.2.1 6 (by decide)
    rw [h]
    decide

end KyLake
